import Mathlib

/-!
Verification development for the AML Investigation Agent pipeline:
signal extraction, rule-based policy evaluation, LLM-justification
validation, outcome validation, the linear pipeline orchestrator with
its progress stream, and the frontend stream reader.

The repository ships the frontend stream reader (frontend App.tsx) as
source; the Python backend (policy engine, graph nodes, validators,
API) is described by the repository documentation (README, run-flow
notes, policy_v1.md) and is modelled here from those descriptions.
-/

namespace AML

/-- The four decision tiers, in the fixed total order
`CLOSE_NO_ACTION < L1_REVIEW < ESCALATE_L2 < SAR_REVIEW_L2`
(policies/policy_v1.md, Decision Hierarchy). -/
inductive Tier where
  | CLOSE_NO_ACTION
  | L1_REVIEW
  | ESCALATE_L2
  | SAR_REVIEW_L2
deriving DecidableEq, Repr

/-- Numeric rank of a tier under the fixed decision hierarchy. -/
def Tier.rank : Tier → Nat
  | .CLOSE_NO_ACTION => 0
  | .L1_REVIEW => 1
  | .ESCALATE_L2 => 2
  | .SAR_REVIEW_L2 => 3

/-- The more severe of two tiers under the decision hierarchy. -/
def Tier.max (a b : Tier) : Tier := if a.rank ≤ b.rank then b else a

/-- Modelled from the spec: rule-block predicates are threshold and
comparison expressions over named signals (agent/policy_engine is not
in the source tree). -/
inductive Pred where
  | geThr (name : String) (thr : Int)
  | ltThr (name : String) (thr : Int)
  | eqVal (name : String) (value : Int)
  | conj (p q : Pred)
  | disj (p q : Pred)

/-- Evaluation context: merged case fields and signal sets, as a flat
mapping of names to numeric values. -/
def lookupSig (ctx : List (String × Int)) (n : String) : Option Int :=
  match ctx.find? (fun p => p.1 == n) with
  | some p => some p.2
  | none => none

/-- Modelled from the spec: predicate evaluation over the merged
context; a missing or unparseable per-case value is treated as
predicate-false, never an exception. -/
def evalPred (ctx : List (String × Int)) : Pred → Bool
  | .geThr n t =>
    match lookupSig ctx n with
    | some v => decide (t ≤ v)
    | none => false
  | .ltThr n t =>
    match lookupSig ctx n with
    | some v => decide (v < t)
    | none => false
  | .eqVal n w =>
    match lookupSig ctx n with
    | some v => v == w
    | none => false
  | .conj p q => evalPred ctx p && evalPred ctx q
  | .disj p q => evalPred ctx p || evalPred ctx q

/-- A rule block of the policy specification: decision tier, predicate
over signals, reason template, optional always-include disclosure
flag, optional required next action. -/
structure RuleBlock where
  tier : Tier
  pred : Pred
  reason : String
  alwaysInclude : Bool
  nextAction : Option String

/-- A versioned policy specification: an ordered list of rule blocks. -/
structure PolicySpec where
  version : String
  ruleBlocks : List RuleBlock

/-- Discrete confidence levels of a policy decision. -/
inductive Confidence where
  | low
  | medium
  | high
deriving DecidableEq, Repr

/-- Margin between the top two triggered tier ranks (zero when fewer
than two blocks triggered). -/
def confMargin (ranks : List Nat) : Nat :=
  let top := ranks.foldl Nat.max 0
  top - (ranks.erase top).foldl Nat.max 0

/-- Modelled from the spec: fixed mapping from (number of triggered
blocks, margin between top two triggered tiers) to a discrete level;
more corroborating rules and a wider margin give higher confidence. -/
def confidenceOf (count margin : Nat) : Confidence :=
  if 2 ≤ count ∧ 1 ≤ margin then .high
  else if 2 ≤ count ∨ 1 ≤ margin then .medium
  else .low

/-- The policy-engine output: one tier, a confidence level, ordered
reasons, optional required next actions, and the audit snapshot of the
signals used. -/
structure PolicyDecision where
  case_id : String
  decision : Tier
  confidence : Confidence
  reasons : List String
  required_next_actions : List String
  debug_signals : List (String × Int)
deriving Repr

/-- Reason reported when zero rule blocks trigger. -/
def noRuleMatchedReason : String := "No rule matched; defaulting to CLOSE_NO_ACTION"

/-- Conflict resolution: the decision is the most severe tier among
the triggered blocks; `CLOSE_NO_ACTION` when none triggered. -/
def decisionOf (triggered : List RuleBlock) : Tier :=
  match triggered with
  | [] => .CLOSE_NO_ACTION
  | b :: bs => bs.foldl (fun t r => Tier.max t r.tier) b.tier

/-- Reasons of the decision: the reason strings of the triggered
blocks at the winning tier plus the always-include disclosures, in
block order; a fixed no-rule-matched explanation when none triggered. -/
def reasonsOf (triggered : List RuleBlock) : List String :=
  match triggered with
  | [] => [noRuleMatchedReason]
  | _ :: _ =>
    (triggered.filter
      (fun r => r.tier == decisionOf triggered || r.alwaysInclude)).map RuleBlock.reason

/-- Modelled from the spec: the policy engine evaluates every rule
block against the merged evaluation context, collects the triggered
blocks, resolves conflicts by highest tier, and records the exact
signals used (agent/policy_engine is not in the source tree). -/
def evaluate (spec : PolicySpec) (caseId : String) (ctx : List (String × Int)) : PolicyDecision :=
  let triggered := spec.ruleBlocks.filter (fun b => evalPred ctx b.pred)
  { case_id := caseId
    decision := decisionOf triggered
    confidence := confidenceOf triggered.length
      (confMargin (triggered.map (fun r => r.tier.rank)))
    reasons := reasonsOf triggered
    required_next_actions := triggered.filterMap RuleBlock.nextAction
    debug_signals := ctx }

theorem Tier.rank_le_max_left (a b : Tier) : a.rank ≤ (Tier.max a b).rank := by
  unfold Tier.max
  split <;> omega

theorem Tier.rank_le_max_right (a b : Tier) : b.rank ≤ (Tier.max a b).rank := by
  unfold Tier.max
  split <;> omega

theorem foldl_tmax_base_le (l : List RuleBlock) (a : Tier) :
    a.rank ≤ (l.foldl (fun t r => Tier.max t r.tier) a).rank := by
  induction l generalizing a with
  | nil => simp
  | cons b bs ih =>
    simp only [List.foldl_cons]
    have h1 := ih (Tier.max a b.tier)
    have h2 : a.rank ≤ (Tier.max a b.tier).rank := Tier.rank_le_max_left a b.tier
    omega

theorem foldl_tmax_mem_le (l : List RuleBlock) (a : Tier) (b : RuleBlock) (hb : b ∈ l) :
    b.tier.rank ≤ (l.foldl (fun t r => Tier.max t r.tier) a).rank := by
  induction l generalizing a with
  | nil => cases hb
  | cons c cs ih =>
    simp only [List.foldl_cons]
    rcases List.mem_cons.mp hb with h | h
    · subst h
      have h1 := foldl_tmax_base_le cs (Tier.max a b.tier)
      have h2 : b.tier.rank ≤ (Tier.max a b.tier).rank := Tier.rank_le_max_right a b.tier
      omega
    · exact ih (Tier.max a c.tier) h

theorem foldl_tmax_attained (l : List RuleBlock) (a : Tier) :
    l.foldl (fun t r => Tier.max t r.tier) a = a ∨
      ∃ b ∈ l, l.foldl (fun t r => Tier.max t r.tier) a = b.tier := by
  induction l generalizing a with
  | nil => left; rfl
  | cons c cs ih =>
    simp only [List.foldl_cons]
    rcases ih (Tier.max a c.tier) with h | h
    · by_cases hle : a.rank ≤ c.tier.rank
      · right
        refine ⟨c, List.mem_cons_self c cs, ?_⟩
        rw [h]
        unfold Tier.max
        simp [hle]
      · left
        rw [h]
        unfold Tier.max
        simp [hle]
    · rcases h with ⟨b, hb, heq⟩
      right
      exact ⟨b, List.mem_cons_of_mem c hb, heq⟩

theorem decisionOf_ub (l : List RuleBlock) (b : RuleBlock) (hb : b ∈ l) :
    b.tier.rank ≤ (decisionOf l).rank := by
  cases l with
  | nil => cases hb
  | cons c cs =>
    unfold decisionOf
    rcases List.mem_cons.mp hb with h | h
    · subst h
      exact foldl_tmax_base_le cs b.tier
    · exact foldl_tmax_mem_le cs c.tier b h

theorem decisionOf_attained (l : List RuleBlock) (hl : l ≠ []) :
    ∃ b ∈ l, b.tier = decisionOf l := by
  cases l with
  | nil => exact absurd rfl hl
  | cons c cs =>
    unfold decisionOf
    rcases foldl_tmax_attained cs c.tier with h | h
    · exact ⟨c, List.mem_cons_self c cs, h.symm⟩
    · rcases h with ⟨b, hb, heq⟩
      exact ⟨b, List.mem_cons_of_mem c hb, heq.symm⟩

/-- Example policy specification used to exercise the policy engine on
concrete inputs. -/
def demoSpec : PolicySpec :=
  { version := "v1"
    ruleBlocks :=
      [ { tier := .L1_REVIEW
          pred := .geThr "txn_velocity" 5
          reason := "High transaction velocity"
          alwaysInclude := false
          nextAction := none }
      , { tier := .SAR_REVIEW_L2
          pred := .geThr "crypto_share" 50
          reason := "Crypto share exceeds SAR threshold"
          alwaysInclude := false
          nextAction := some "File SAR" } ] }

/-- C1: when at least one rule block triggers, the decision of
`evaluate` is the maximum tier among the triggered blocks under the
fixed total order on tiers: it bounds every triggered tier from above
and is itself the tier of some triggered block — never an average or
the first-triggered tier. -/
theorem evaluate_highest_tier_wins (spec : PolicySpec) (caseId : String)
    (ctx : List (String × Int))
    (h : ∃ b ∈ spec.ruleBlocks, evalPred ctx b.pred = true) :
    (∀ b ∈ spec.ruleBlocks, evalPred ctx b.pred = true →
        b.tier.rank ≤ ((evaluate spec caseId ctx).decision).rank) ∧
    (∃ b ∈ spec.ruleBlocks, evalPred ctx b.pred = true ∧
        b.tier = (evaluate spec caseId ctx).decision) := by
  have hdec : (evaluate spec caseId ctx).decision
      = decisionOf (spec.ruleBlocks.filter (fun b => evalPred ctx b.pred)) := rfl
  constructor
  · intro b hb htrig
    rw [hdec]
    exact decisionOf_ub _ b (List.mem_filter.mpr ⟨hb, htrig⟩)
  · have hne : spec.ruleBlocks.filter (fun b => evalPred ctx b.pred) ≠ [] := by
      rcases h with ⟨b, hb, ht⟩
      intro hnil
      have hmem : b ∈ spec.ruleBlocks.filter (fun b => evalPred ctx b.pred) :=
        List.mem_filter.mpr ⟨hb, ht⟩
      rw [hnil] at hmem
      cases hmem
    rcases decisionOf_attained _ hne with ⟨b, hb, heq⟩
    have hmem := List.mem_filter.mp hb
    exact ⟨b, hmem.1, hmem.2, by rw [hdec]; exact heq⟩

/-- Witness for C1 at a concrete policy and context in which two
blocks of different tiers trigger. -/
theorem evaluate_highest_tier_wins_witness :
    (∀ b ∈ demoSpec.ruleBlocks,
        evalPred [("txn_velocity", (9 : Int)), ("crypto_share", 80)] b.pred = true →
        b.tier.rank ≤
          ((evaluate demoSpec "case-1"
            [("txn_velocity", (9 : Int)), ("crypto_share", 80)]).decision).rank) ∧
    (∃ b ∈ demoSpec.ruleBlocks,
        evalPred [("txn_velocity", (9 : Int)), ("crypto_share", 80)] b.pred = true ∧
        b.tier =
          (evaluate demoSpec "case-1"
            [("txn_velocity", (9 : Int)), ("crypto_share", 80)]).decision) :=
  evaluate_highest_tier_wins demoSpec "case-1"
    [("txn_velocity", (9 : Int)), ("crypto_share", 80)] (by decide)

/-- C2: when zero rule blocks trigger, `evaluate` returns the lowest
tier `CLOSE_NO_ACTION` and the reasons list is exactly the single
no-rule-matched explanation. -/
theorem evaluate_zero_triggered (spec : PolicySpec) (caseId : String)
    (ctx : List (String × Int))
    (h : ∀ b ∈ spec.ruleBlocks, evalPred ctx b.pred = false) :
    (evaluate spec caseId ctx).decision = Tier.CLOSE_NO_ACTION ∧
    (evaluate spec caseId ctx).reasons = [noRuleMatchedReason] := by
  have hfil : spec.ruleBlocks.filter (fun b => evalPred ctx b.pred) = [] := by
    rw [List.filter_eq_nil_iff]
    intro b hb
    simp [h b hb]
  have hdec : (evaluate spec caseId ctx).decision
      = decisionOf (spec.ruleBlocks.filter (fun b => evalPred ctx b.pred)) := rfl
  have hrea : (evaluate spec caseId ctx).reasons
      = reasonsOf (spec.ruleBlocks.filter (fun b => evalPred ctx b.pred)) := rfl
  rw [hdec, hrea, hfil]
  exact ⟨rfl, rfl⟩

/-- Witness for C2 at a concrete policy and an empty signal context on
which no block triggers. -/
theorem evaluate_zero_triggered_witness :
    (evaluate demoSpec "case-2" []).decision = Tier.CLOSE_NO_ACTION ∧
    (evaluate demoSpec "case-2" []).reasons = [noRuleMatchedReason] :=
  evaluate_zero_triggered demoSpec "case-2" [] (by decide)

/-! Enriched cases and signal extraction. -/

/-- An enriched case: identifiers plus opaque structured payloads
(frontend App.tsx interface EnrichedCase); payloads may be missing. -/
structure EnrichedCase where
  case_id : String
  customer_id : String
  customer_snapshot : Option String
  case_metadata : Option String
  alerts_in_case : Option String
  flagged_transactions : Option String
  behavior_snapshot : Option String
deriving DecidableEq, Repr

/-- Splitting a character list on a separator, keeping empty pieces. -/
def splitOnChar (sep : Char) : List Char → List (List Char)
  | [] => [[]]
  | c :: rest =>
    if c = sep then [] :: splitOnChar sep rest
    else
      match splitOnChar sep rest with
      | [] => [[c]]
      | h :: t => (c :: h) :: t

/-- Parse a digit string to a number; empty or non-digit input parses
to none. -/
def parseDigits (l : List Char) : Option Nat :=
  match l with
  | [] => none
  | _ =>
    l.foldl (fun acc c =>
      match acc with
      | none => none
      | some n => if c.isDigit then some (n * 10 + (c.toNat - 48)) else none)
      (some 0)

/-- Parse an optionally signed integer; malformed input parses to
none. -/
def parseIntChars (l : List Char) : Option Int :=
  match l with
  | [] => none
  | c :: rest =>
    if c = '-' then (parseDigits rest).map (fun n => -(n : Int))
    else (parseDigits (c :: rest)).map (fun n => (n : Int))

/-- Raw value of the first well-formed key=value entry of a payload
carrying the given key; none when there is no such entry. -/
def lookupEntry (payload : String) (key : String) : Option (List Char) :=
  ((splitOnChar ';' payload.data).filterMap (fun e =>
    match splitOnChar '=' e with
    | [k, v] => if k = key.data then some v else none
    | _ => none)).head?

/-- Numeric sub-field of a payload: none when the payload is missing,
the entry is absent, or the entry is malformed. -/
def getNum (payload : Option String) (key : String) : Option Int :=
  match payload with
  | none => none
  | some s => (lookupEntry s key).bind parseIntChars

/-- Categorical sub-field of a payload: none when the payload is
missing or the entry is absent or malformed. -/
def getCat (payload : Option String) (key : String) : Option String :=
  match payload with
  | none => none
  | some s => (lookupEntry s key).map String.mk

/-- Flat numeric risk indicators derived from one enriched case. -/
structure RiskSignals where
  total_flagged_amount : Int
  txn_velocity : Int
  crypto_share : Int
  alert_count : Int
deriving DecidableEq, Repr

/-- Flat behavior indicators derived from one enriched case. -/
structure BehaviorSignals where
  behavior_flag : String
  deviation_score : Int
deriving DecidableEq, Repr

/-- Modelled from the spec: `extract_risk` is a pure total function
from an enriched case to risk signals; a missing or malformed
sub-field degrades to the conservative default 0 (agent/tools is not
in the source tree). -/
def extract_risk (c : EnrichedCase) : RiskSignals :=
  { total_flagged_amount := (getNum c.flagged_transactions "total_amount").getD 0
    txn_velocity := (getNum c.flagged_transactions "txn_velocity").getD 0
    crypto_share := (getNum c.flagged_transactions "crypto_share").getD 0
    alert_count := (getNum c.alerts_in_case "alert_count").getD 0 }

/-- Modelled from the spec: `extract_behavior` is a pure total
function from an enriched case to behavior signals; a missing or
malformed sub-field degrades to the conservative defaults "unknown"
and 0 (agent/tools is not in the source tree). -/
def extract_behavior (c : EnrichedCase) : BehaviorSignals :=
  { behavior_flag := (getCat c.behavior_snapshot "behavior_flag").getD "unknown"
    deviation_score := (getNum c.behavior_snapshot "deviation_score").getD 0 }

/-! Justification validation and the LLM node. -/

/-- A structured justification: the mapping of narrative fields
returned by the external LLM collaborator after validation. -/
abbrev Justification := List (String × String)

/-- Success flag, optional error, optional model name and raw debug
response; produced by the JUSTIFY stage on every outcome. -/
structure JustificationMeta where
  ok : Bool
  error : Option String
  model : Option String
  debug_raw_response : Option String
deriving DecidableEq, Repr

/-- Required narrative keys of a justification (README, LLM node). -/
def requiredKeys : List String :=
  ["case_summary", "risk_assessment_summary",
   "policy_alignment_explanation", "recommended_action_rationale"]

/-- Whether a parsed object carries the given key. -/
def hasKey (obj : List (String × String)) (k : String) : Bool :=
  obj.any (fun p => p.1 == k)

/-- Modelled from the spec: the required-key schema check on a parsed
LLM response (agent/graph/node_llm_justification.py is not in the
source tree). -/
def validate_justification (obj : List (String × String)) : Bool :=
  requiredKeys.all (hasKey obj)

/-- The full narrative text of a parsed object: its field values. -/
def justText (obj : List (String × String)) : String :=
  String.intercalate " " (obj.map (fun p => p.2))

/-- Whether the pure pattern list occurs contiguously at the head of
the subject list. -/
def matchesAt (pat s : List Char) : Bool :=
  match pat, s with
  | [], _ => true
  | _ :: _, [] => false
  | p :: ps, c :: cs => p == c && matchesAt ps cs

/-- Whether the pattern list occurs contiguously anywhere in the
subject list. -/
def hasInfixFrom (pat s : List Char) : Bool :=
  match s with
  | [] => matchesAt pat []
  | _ :: rest => matchesAt pat s || hasInfixFrom pat rest

/-- Literal substring containment on strings. -/
def containsSubstr (text pat : String) : Bool :=
  hasInfixFrom pat.data text.data

/-- Modelled from the spec: the content guardrail — the justification
text must reference at least one literal reason string of the policy
decision (agent/graph/node_llm_justification.py is not in the source
tree). -/
def validate_against_debug_signals (obj : List (String × String))
    (pd : PolicyDecision) : Bool :=
  pd.reasons.any (fun r => containsSubstr (justText obj) r)

/-- Outcome of the external LLM collaborator as observed at the
JUSTIFY stage boundary: unreachable, timed out, returned text that is
not JSON, or returned a parsed JSON object. -/
inductive LLMOutcome where
  | unreachable
  | timedOut
  | nonJSON (raw : String)
  | parsed (obj : List (String × String))
deriving DecidableEq

def unreachableErrorMsg : String := "LLM unreachable"

def timeoutErrorMsg : String := "LLM request timed out"

def parseErrorMsg : String := "LLM response was not valid JSON"

def schemaErrorMsg : String := "LLM response missing required keys"

def guardrailErrorMsg : String := "LLM did not reference matched policy reasons"

def modelName : String := "lm-studio-local"

/-- Modelled from the spec: the JUSTIFY node consumes the collaborator
outcome, applies the schema check and the guardrail, and on any
failure catches it and returns an absent justification together with a
meta record whose error field is set; it never raises
(agent/graph/node_llm_justification.py is not in the source tree). -/
def node_llm_justification (pd : PolicyDecision) (out : LLMOutcome) :
    Option Justification × JustificationMeta :=
  match out with
  | .unreachable =>
    (none, { ok := false, error := some unreachableErrorMsg,
             model := some modelName, debug_raw_response := none })
  | .timedOut =>
    (none, { ok := false, error := some timeoutErrorMsg,
             model := some modelName, debug_raw_response := none })
  | .nonJSON raw =>
    (none, { ok := false, error := some parseErrorMsg,
             model := some modelName, debug_raw_response := some raw })
  | .parsed obj =>
    if validate_justification obj then
      if validate_against_debug_signals obj pd then
        (some obj, { ok := true, error := none,
                     model := some modelName, debug_raw_response := none })
      else
        (none, { ok := false, error := some guardrailErrorMsg,
                 model := some modelName, debug_raw_response := none })
    else
      (none, { ok := false, error := some schemaErrorMsg,
               model := some modelName, debug_raw_response := none })

/-- Whether the JUSTIFY stage outcome counts as an
external-collaborator failure: unreachable, timed out, non-JSON,
schema-incomplete, or guardrail-failed. -/
def llmFails (pd : PolicyDecision) (out : LLMOutcome) : Bool :=
  match out with
  | .parsed obj =>
    !(validate_justification obj && validate_against_debug_signals obj pd)
  | _ => true

/-! Outcome validation. -/

/-- Modelled from the spec: the final gate checks that a policy
decision exists and that a justification is present, itemizing an
error string per missing piece; an absent justification is a distinct
recoverable error (agent/graph/node.py validate is not in the source
tree). -/
def validateOutcome (pd : Option PolicyDecision) (j : Option Justification) :
    Bool × List String :=
  let errs :=
    (if pd.isNone then ["policy_decision missing"] else []) ++
    (if j.isNone then
      ["llm_justification missing (recoverable external-collaborator failure)"]
     else [])
  (errs.isEmpty, errs)

/-! The pipeline state, stage deltas, and the orchestrator. -/

/-- The single shared state envelope threading the run
(agent/graph/state.py AgentState per the README: enriched_case,
risk_signals, behavior_signals, policy_decision, llm_justification,
llm_justification_meta, validation_ok, validation_errors). A field is
none until the owning stage has run; `llm_justification` is two-level
because the JUSTIFY stage explicitly stores an absent justification on
failure. -/
structure PipelineState where
  enriched_case : Option EnrichedCase
  risk_signals : Option RiskSignals
  behavior_signals : Option BehaviorSignals
  policy_decision : Option PolicyDecision
  llm_justification : Option (Option Justification)
  llm_justification_meta : Option JustificationMeta
  validation_ok : Option Bool
  validation_errors : Option (List String)

/-- The delta a stage returns: only the declared state fields it adds
or overwrites; all others none. -/
structure Delta where
  enriched_case : Option EnrichedCase := none
  risk_signals : Option RiskSignals := none
  behavior_signals : Option BehaviorSignals := none
  policy_decision : Option PolicyDecision := none
  llm_justification : Option (Option Justification) := none
  llm_justification_meta : Option JustificationMeta := none
  validation_ok : Option Bool := none
  validation_errors : Option (List String) := none

/-- Field-level merge: a field set in the delta overwrites, an unset
delta field keeps the accumulated value. -/
def overrideField (d s : Option α) : Option α :=
  match d with
  | some v => some v
  | none => s

/-- Modelled from the spec: after each node the orchestrator merges
the returned delta into the running state, field by field, over the
declared AgentState keys (run-flow notes, LangGraph merge). -/
def mergeDelta (s : PipelineState) (d : Delta) : PipelineState :=
  { enriched_case := overrideField d.enriched_case s.enriched_case
    risk_signals := overrideField d.risk_signals s.risk_signals
    behavior_signals := overrideField d.behavior_signals s.behavior_signals
    policy_decision := overrideField d.policy_decision s.policy_decision
    llm_justification := overrideField d.llm_justification s.llm_justification
    llm_justification_meta :=
      overrideField d.llm_justification_meta s.llm_justification_meta
    validation_ok := overrideField d.validation_ok s.validation_ok
    validation_errors := overrideField d.validation_errors s.validation_errors }

/-- Initial state of a run: only the enriched case is set. -/
def initState (ec : EnrichedCase) : PipelineState :=
  { enriched_case := some ec
    risk_signals := none
    behavior_signals := none
    policy_decision := none
    llm_justification := none
    llm_justification_meta := none
    validation_ok := none
    validation_errors := none }

def defaultCase : EnrichedCase :=
  { case_id := "", customer_id := "", customer_snapshot := none
    case_metadata := none, alerts_in_case := none
    flagged_transactions := none, behavior_snapshot := none }

def defaultRisk : RiskSignals :=
  { total_flagged_amount := 0, txn_velocity := 0, crypto_share := 0, alert_count := 0 }

def defaultBehavior : BehaviorSignals :=
  { behavior_flag := "unknown", deviation_score := 0 }

def defaultDecision : PolicyDecision :=
  { case_id := "", decision := .CLOSE_NO_ACTION, confidence := .low
    reasons := [], required_next_actions := [], debug_signals := [] }

/-- The merged evaluation context the policy engine sees: both signal
sets flattened to named numeric values. -/
def ctxOf (r : RiskSignals) (b : BehaviorSignals) : List (String × Int) :=
  [("total_flagged_amount", r.total_flagged_amount),
   ("txn_velocity", r.txn_velocity),
   ("crypto_share", r.crypto_share),
   ("alert_count", r.alert_count),
   ("deviation_score", b.deviation_score)]

/-- RISK stage: reads the enriched case, returns only risk_signals. -/
def riskStage (s : PipelineState) : Delta :=
  { risk_signals := some (extract_risk (s.enriched_case.getD defaultCase)) }

/-- BEHAVIOR stage: reads the enriched case, returns only
behavior_signals. -/
def behaviorStage (s : PipelineState) : Delta :=
  { behavior_signals := some (extract_behavior (s.enriched_case.getD defaultCase)) }

/-- POLICY stage: evaluates the policy over the merged context,
returns only policy_decision. -/
def policyStage (spec : PolicySpec) (s : PipelineState) : Delta :=
  { policy_decision := some (evaluate spec (s.enriched_case.getD defaultCase).case_id
      (ctxOf (s.risk_signals.getD defaultRisk) (s.behavior_signals.getD defaultBehavior))) }

/-- JUSTIFY stage: consumes the collaborator outcome, returns only
llm_justification and llm_justification_meta. -/
def justifyStage (out : LLMOutcome) (s : PipelineState) : Delta :=
  let res := node_llm_justification (s.policy_decision.getD defaultDecision) out
  { llm_justification := some res.1, llm_justification_meta := some res.2 }

/-- VALIDATE stage: final gate, returns only validation_ok and
validation_errors. -/
def validateStage (s : PipelineState) : Delta :=
  let r := validateOutcome s.policy_decision (s.llm_justification.getD none)
  { validation_ok := some r.1, validation_errors := some r.2 }

/-- The fixed ordered stage list of one run: name and stage function
(README: tool1 → tool2 → policy_engine → llm_justify → validate). -/
def stages (spec : PolicySpec) (out : LLMOutcome) :
    List (String × (PipelineState → Delta)) :=
  [("Calculating risk signals", riskStage),
   ("Calculating behavior signals", behaviorStage),
   ("Running policy engine", policyStage spec),
   ("Generating LLM justification", justifyStage out),
   ("Validating output", validateStage)]

/-- Successive states after each stage merge. -/
def runStatesAux (s : PipelineState) :
    List (String × (PipelineState → Delta)) → List PipelineState
  | [] => []
  | (_, f) :: rest =>
    let s2 := mergeDelta s (f s)
    s2 :: runStatesAux s2 rest

/-- All states of one run, initial state included. -/
def runStates (spec : PolicySpec) (out : LLMOutcome) (ec : EnrichedCase) :
    List PipelineState :=
  initState ec :: runStatesAux (initState ec) (stages spec out)

/-- The terminal state of one run. -/
def runFinal (spec : PolicySpec) (out : LLMOutcome) (ec : EnrichedCase) :
    PipelineState :=
  (runStates spec out ec).getLastD (initState ec)

/-- Typed progress-stream events (README: SSE events of
/api/run-stream; one progress event per node, then a terminal event). -/
inductive Event where
  | progress (message : String) (index : Nat) (total : Nat)
  | done (result : PipelineState)
  | error (detail : String)

/-- Modelled from the spec: the orchestrator runs the stages in order,
merging each delta and emitting one progress event per completed stage
carrying the stage name, 1-based index and total count (api/main.py is
not in the source tree). -/
def runEmit (s : PipelineState) (i total : Nat) :
    List (String × (PipelineState → Delta)) → List Event × PipelineState
  | [] => ([], s)
  | (name, f) :: rest =>
    let s2 := mergeDelta s (f s)
    let r := runEmit s2 (i + 1) total rest
    (Event.progress name i total :: r.1, r.2)

/-- Modelled from the spec: the full emitted event sequence of one
run: the progress events followed by the single terminal event
carrying the terminal state (api/main.py is not in the source tree). -/
def runStream (spec : PolicySpec) (out : LLMOutcome) (ec : EnrichedCase) :
    List Event :=
  let r := runEmit (initState ec) 1 (stages spec out).length (stages spec out)
  r.1 ++ [Event.done r.2]

/-! The LLM request. -/

/-- The policy-decision subset the LLM request is built from:
decision, confidence, reasons, required next actions and debug
signals — and nothing else. -/
structure PDSubset where
  decision : Tier
  confidence : Confidence
  reasons : List String
  required_next_actions : List String
  debug_signals : List (String × Int)
deriving DecidableEq

/-- Projection of a policy decision onto the subset sent to the LLM. -/
def pdSubset (pd : PolicyDecision) : PDSubset :=
  { decision := pd.decision
    confidence := pd.confidence
    reasons := pd.reasons
    required_next_actions := pd.required_next_actions
    debug_signals := pd.debug_signals }

def renderTier : Tier → String
  | .CLOSE_NO_ACTION => "CLOSE_NO_ACTION"
  | .L1_REVIEW => "L1_REVIEW"
  | .ESCALATE_L2 => "ESCALATE_L2"
  | .SAR_REVIEW_L2 => "SAR_REVIEW_L2"

def renderConfidence : Confidence → String
  | .low => "low"
  | .medium => "medium"
  | .high => "high"

def renderSig (p : String × Int) : String := p.1 ++ "=" ++ toString p.2

/-- The fixed instruction template of the LLM request
(config/prompts.py per the README; not in the source tree). -/
def systemPromptText : String :=
  "You are an AML compliance assistant. Return a JSON object with keys case_summary, risk_assessment_summary, policy_alignment_explanation, recommended_action_rationale. Base the narrative only on the provided policy decision."

/-- Rendering of the policy-decision subset into the user message. -/
def renderSubset (x : PDSubset) : String :=
  "decision: " ++ renderTier x.decision ++
  "; confidence: " ++ renderConfidence x.confidence ++
  "; reasons: " ++ String.intercalate ", " x.reasons ++
  "; required_next_actions: " ++ String.intercalate ", " x.required_next_actions ++
  "; debug_signals: " ++ String.intercalate ", " (x.debug_signals.map renderSig)

/-- A chat request to the LLM collaborator: fixed system prompt plus
the rendered policy-decision subset. -/
structure LLMRequest where
  system : String
  user : String
deriving DecidableEq

/-- Modelled from the spec: the JUSTIFY stage builds the request from
the policy decision held in the state and the fixed template only
(agent/graph/node_llm_justification.py is not in the source tree). -/
def buildRequest (s : PipelineState) : LLMRequest :=
  { system := systemPromptText
    user := renderSubset (pdSubset (s.policy_decision.getD defaultDecision)) }

/-! The frontend stream reader (frontend App.tsx, runAgent). -/

/-- Splitting a character stream on newline separators, keeping empty
pieces, as the JS split with a newline separator does: the result is
always nonempty and its last piece is the text after the last
newline. -/
def splitNl : List Char → List (List Char)
  | [] => [[]]
  | c :: rest =>
    if c = '\n' then [] :: splitNl rest
    else
      match splitNl rest with
      | [] => [[c]]
      | h :: t => (c :: h) :: t

/-- The complete newline-terminated lines of a stream together with
the trailing partial line after the last newline. -/
def splitParts : List Char → List (List Char) × List Char
  | [] => ([], [])
  | c :: rest =>
    let r := splitParts rest
    if c = '\n' then ([] :: r.1, r.2)
    else
      match r.1 with
      | [] => ([], c :: r.2)
      | h :: t => ((c :: h) :: t, r.2)

/-- How the completed lines and trailing segments of two adjacent
stream fragments combine: the left trailing segment glues onto the
first completed line of the right fragment, or onto its trailing
segment when the right fragment has no newline. -/
def combineParts (pa pb : List (List Char) × List Char) :
    List (List Char) × List Char :=
  match pb.1 with
  | [] => (pa.1, pa.2 ++ pb.2)
  | h :: t => (pa.1 ++ (pa.2 ++ h) :: t, pb.2)

/-- One reader-loop iteration of runAgent: append the decoded chunk to
the buffer, split on newlines, pop the trailing partial line back into
the buffer, and hand the complete lines on (App.tsx lines 86-88). -/
def feedChunk (acc : List (List Char) × List Char) (chunk : List Char) :
    List (List Char) × List Char :=
  let pieces := splitNl (acc.2 ++ chunk)
  (acc.1 ++ pieces.dropLast, pieces.getLastD [])

/-- The lines handed on and the final buffer after consuming a whole
partition of the stream into chunks, starting from an empty buffer. -/
def feedChunks (chunks : List (List Char)) : List (List Char) × List Char :=
  chunks.foldl feedChunk ([], [])

theorem splitNl_parts (l : List Char) :
    splitNl l = (splitParts l).1 ++ [(splitParts l).2] := by
  induction l with
  | nil => rfl
  | cons c rest ih =>
    by_cases hc : c = '\n'
    · simp [splitNl, splitParts, hc, ih]
    · cases hp : (splitParts rest).1 with
      | nil =>
        rw [hp] at ih
        simp [splitNl, splitParts, hc, ih, hp]
      | cons h t =>
        rw [hp] at ih
        simp [splitNl, splitParts, hc, ih, hp]

theorem splitParts_append (a b : List Char) :
    splitParts (a ++ b) = combineParts (splitParts a) (splitParts b) := by
  induction a with
  | nil =>
    rcases hp : splitParts b with ⟨lines, trail⟩
    cases lines <;> simp [splitParts, combineParts, hp]
  | cons c a ih =>
    by_cases hc : c = '\n'
    · cases hp : (splitParts b).1 with
      | nil => simp [splitParts, combineParts, hc, ih, hp]
      | cons h t => simp [splitParts, combineParts, hc, ih, hp]
    · cases hpa : (splitParts a).1 with
      | nil =>
        cases hpb : (splitParts b).1 with
        | nil => simp [splitParts, combineParts, hc, ih, hpa, hpb]
        | cons h t => simp [splitParts, combineParts, hc, ih, hpa, hpb]
      | cons h0 t0 =>
        cases hpb : (splitParts b).1 with
        | nil => simp [splitParts, combineParts, hc, ih, hpa, hpb]
        | cons h t => simp [splitParts, combineParts, hc, ih, hpa, hpb]

theorem newline_not_mem_trail (l : List Char) : Char.ofNat 10 ∉ (splitParts l).2 := by
  induction l with
  | nil => simp [splitParts]
  | cons c rest ih =>
    by_cases hc : c = '\n'
    · simp [splitParts, hc, ih]
    · cases hp : (splitParts rest).1 with
      | nil =>
        simp only [splitParts, hc, if_false, hp]
        intro hmem
        rcases List.mem_cons.mp hmem with h | h
        · exact hc h.symm
        · exact ih h
      | cons h t => simp [splitParts, hc, hp, ih]

theorem splitParts_of_no_newline (l : List Char) (h : Char.ofNat 10 ∉ l) :
    splitParts l = ([], l) := by
  induction l with
  | nil => rfl
  | cons c rest ih =>
    have hc : ¬(c = '\n') := by
      intro he
      exact h (by rw [he]; exact List.mem_cons_self _ _)
    have hrest : Char.ofNat 10 ∉ rest := fun hm => h (List.mem_cons_of_mem c hm)
    simp [splitParts, hc, ih hrest]

theorem feedChunk_parts (acc : List (List Char) × List Char) (chunk : List Char) :
    feedChunk acc chunk =
      (acc.1 ++ (splitParts (acc.2 ++ chunk)).1, (splitParts (acc.2 ++ chunk)).2) := by
  unfold feedChunk
  rw [splitNl_parts]
  simp [List.dropLast_concat, List.getLastD_concat]

theorem feedChunks_concat (chunks : List (List Char)) (x : List Char) :
    feedChunks (chunks ++ [x]) = feedChunk (feedChunks chunks) x := by
  unfold feedChunks
  rw [List.foldl_append]
  rfl

theorem feedChunks_parts (chunks : List (List Char)) :
    feedChunks chunks = splitParts chunks.flatten := by
  induction chunks using List.reverseRecOn with
  | nil => rfl
  | append_singleton l x ih =>
    rw [feedChunks_concat, ih, feedChunk_parts]
    rw [List.flatten_append]
    simp only [List.flatten_cons, List.flatten_nil, List.append_nil]
    rw [splitParts_append ((splitParts l.flatten).2) x,
      splitParts_of_no_newline _ (newline_not_mem_trail l.flatten),
      splitParts_append l.flatten x]
    rcases hq : splitParts x with ⟨qlines, qtrail⟩
    cases qlines <;> simp [combineParts]

/-- Parsed view of one stream event as the frontend reads it; fields
are optional because the JSON payload may omit them. -/
inductive FrontEvent where
  | progress (message : Option String) (index : Option Nat) (total : Option Nat)
  | done (result : String)
  | errorEv (detail : Option String)
  | other

/-- The frontend component state touched while consuming the stream:
the rendered output, the progress indicator and the error banner. -/
structure FrontState where
  output : Option String
  progressBar : Option (String × Nat × Nat)
  errorMsg : Option String
deriving DecidableEq, Repr

/-- The literal six-character line marker of a server-sent data line. -/
def dataTag : List Char := "data: ".data

/-- One iteration of the line loop in runAgent (App.tsx lines 89-110):
lines without the data marker are ignored; a payload the JSON parser
rejects raises SyntaxError, which is caught and skipped; a progress or
done event updates the component state; an error event throws past the
loop (caught further out as the run error). The JSON parser itself is
a parameter. -/
def processLine (parse : List Char → Option FrontEvent) (st : FrontState)
    (line : List Char) : Except String FrontState :=
  if line.take 6 = dataTag then
    match parse (line.drop 6) with
    | none => .ok st
    | some ev =>
      match ev with
      | .progress m i t =>
        .ok { st with progressBar := some (m.getD "Running", i.getD 0, t.getD 5) }
      | .done r => .ok { st with output := some r, progressBar := none }
      | .errorEv d => .error (d.getD "Stream error")
      | .other => .ok st
  else .ok st

/-- Consuming the complete lines of one chunk in order, stopping only
when a line throws. -/
def processLines (parse : List Char → Option FrontEvent) (st : FrontState) :
    List (List Char) → Except String FrontState
  | [] => .ok st
  | l :: rest =>
    match processLine parse st l with
    | .ok st2 => processLines parse st2 rest
    | .error e => .error e

/-! Monotone growth of the pipeline state. -/

/-- One state extends another when every field set in the first is
still set, with the same value, in the second. -/
def stateLe (s t : PipelineState) : Prop :=
  (∀ v, s.enriched_case = some v → t.enriched_case = some v) ∧
  (∀ v, s.risk_signals = some v → t.risk_signals = some v) ∧
  (∀ v, s.behavior_signals = some v → t.behavior_signals = some v) ∧
  (∀ v, s.policy_decision = some v → t.policy_decision = some v) ∧
  (∀ v, s.llm_justification = some v → t.llm_justification = some v) ∧
  (∀ v, s.llm_justification_meta = some v → t.llm_justification_meta = some v) ∧
  (∀ v, s.validation_ok = some v → t.validation_ok = some v) ∧
  (∀ v, s.validation_errors = some v → t.validation_errors = some v)

theorem stateLe_refl (s : PipelineState) : stateLe s s :=
  ⟨fun _ h => h, fun _ h => h, fun _ h => h, fun _ h => h,
   fun _ h => h, fun _ h => h, fun _ h => h, fun _ h => h⟩

theorem stateLe_trans {a b c : PipelineState}
    (hab : stateLe a b) (hbc : stateLe b c) : stateLe a c :=
  ⟨fun v h => hbc.1 v (hab.1 v h),
   fun v h => hbc.2.1 v (hab.2.1 v h),
   fun v h => hbc.2.2.1 v (hab.2.2.1 v h),
   fun v h => hbc.2.2.2.1 v (hab.2.2.2.1 v h),
   fun v h => hbc.2.2.2.2.1 v (hab.2.2.2.2.1 v h),
   fun v h => hbc.2.2.2.2.2.1 v (hab.2.2.2.2.2.1 v h),
   fun v h => hbc.2.2.2.2.2.2.1 v (hab.2.2.2.2.2.2.1 v h),
   fun v h => hbc.2.2.2.2.2.2.2 v (hab.2.2.2.2.2.2.2 v h)⟩

theorem overrideField_keeps {α : Type} {d s : Option α}
    (h : d = none ∨ s = none) : ∀ v, s = some v → overrideField d s = some v := by
  intro v hv
  rcases h with h | h
  · rw [h, overrideField, hv]
  · rw [h] at hv
    cases hv

/-- Merging a delta that writes no already-set field extends the
state. -/
theorem stateLe_mergeDelta (s : PipelineState) (d : Delta)
    (h1 : d.enriched_case = none ∨ s.enriched_case = none)
    (h2 : d.risk_signals = none ∨ s.risk_signals = none)
    (h3 : d.behavior_signals = none ∨ s.behavior_signals = none)
    (h4 : d.policy_decision = none ∨ s.policy_decision = none)
    (h5 : d.llm_justification = none ∨ s.llm_justification = none)
    (h6 : d.llm_justification_meta = none ∨ s.llm_justification_meta = none)
    (h7 : d.validation_ok = none ∨ s.validation_ok = none)
    (h8 : d.validation_errors = none ∨ s.validation_errors = none) :
    stateLe s (mergeDelta s d) :=
  ⟨overrideField_keeps h1, overrideField_keeps h2, overrideField_keeps h3,
   overrideField_keeps h4, overrideField_keeps h5, overrideField_keeps h6,
   overrideField_keeps h7, overrideField_keeps h8⟩

/-- State after the RISK stage merge. -/
def st1 (ec : EnrichedCase) : PipelineState :=
  mergeDelta (initState ec) (riskStage (initState ec))

/-- State after the BEHAVIOR stage merge. -/
def st2 (ec : EnrichedCase) : PipelineState :=
  mergeDelta (st1 ec) (behaviorStage (st1 ec))

/-- State after the POLICY stage merge. -/
def st3 (spec : PolicySpec) (ec : EnrichedCase) : PipelineState :=
  mergeDelta (st2 ec) (policyStage spec (st2 ec))

/-- State after the JUSTIFY stage merge. -/
def st4 (spec : PolicySpec) (out : LLMOutcome) (ec : EnrichedCase) : PipelineState :=
  mergeDelta (st3 spec ec) (justifyStage out (st3 spec ec))

/-- State after the VALIDATE stage merge. -/
def st5 (spec : PolicySpec) (out : LLMOutcome) (ec : EnrichedCase) : PipelineState :=
  mergeDelta (st4 spec out ec) (validateStage (st4 spec out ec))

theorem runStates_eq (spec : PolicySpec) (out : LLMOutcome) (ec : EnrichedCase) :
    runStates spec out ec =
      [initState ec, st1 ec, st2 ec, st3 spec ec, st4 spec out ec, st5 spec out ec] := rfl

theorem runFinal_eq (spec : PolicySpec) (out : LLMOutcome) (ec : EnrichedCase) :
    runFinal spec out ec = st5 spec out ec := rfl

/-- The state of a run after its k-th merge (the terminal state past
the end). -/
def stateAt (spec : PolicySpec) (out : LLMOutcome) (ec : EnrichedCase) (k : Nat) :
    PipelineState :=
  (runStates spec out ec).getD k (runFinal spec out ec)

theorem stateAt_chain (spec : PolicySpec) (out : LLMOutcome) (ec : EnrichedCase)
    (k : Nat) : stateLe (stateAt spec out ec k) (stateAt spec out ec (k + 1)) := by
  rcases k with _ | _ | _ | _ | _ | _ | n
  · exact stateLe_mergeDelta _ _ (Or.inl rfl) (Or.inr rfl) (Or.inl rfl) (Or.inl rfl)
      (Or.inl rfl) (Or.inl rfl) (Or.inl rfl) (Or.inl rfl)
  · exact stateLe_mergeDelta _ _ (Or.inl rfl) (Or.inl rfl) (Or.inr rfl) (Or.inl rfl)
      (Or.inl rfl) (Or.inl rfl) (Or.inl rfl) (Or.inl rfl)
  · exact stateLe_mergeDelta _ _ (Or.inl rfl) (Or.inl rfl) (Or.inl rfl) (Or.inr rfl)
      (Or.inl rfl) (Or.inl rfl) (Or.inl rfl) (Or.inl rfl)
  · exact stateLe_mergeDelta _ _ (Or.inl rfl) (Or.inl rfl) (Or.inl rfl) (Or.inl rfl)
      (Or.inr rfl) (Or.inr rfl) (Or.inl rfl) (Or.inl rfl)
  · exact stateLe_mergeDelta _ _ (Or.inl rfl) (Or.inl rfl) (Or.inl rfl) (Or.inl rfl)
      (Or.inl rfl) (Or.inl rfl) (Or.inr rfl) (Or.inr rfl)
  · exact stateLe_refl _
  · exact stateLe_refl _

/-! Shape of the emitted event stream. -/

theorem runEmit_events (l : List (String × (PipelineState → Delta))) :
    ∀ (s : PipelineState) (i total : Nat),
      ((runEmit s i total l).1).length = l.length ∧
      ∀ k, k < l.length →
        ∃ m, ((runEmit s i total l).1)[k]? = some (Event.progress m (i + k) total) := by
  induction l with
  | nil =>
    intro s i total
    refine ⟨rfl, ?_⟩
    intro k hk
    exact absurd hk (by simp)
  | cons p rest ih =>
    intro s i total
    obtain ⟨name, f⟩ := p
    obtain ⟨ihlen, ihidx⟩ := ih (mergeDelta s (f s)) (i + 1) total
    refine ⟨by simp [runEmit, ihlen], ?_⟩
    intro k hk
    cases k with
    | zero => exact ⟨name, by simp [runEmit]⟩
    | succ k =>
      obtain ⟨m, hm⟩ := ihidx k (by simpa using hk)
      refine ⟨m, ?_⟩
      have harith : i + (k + 1) = i + 1 + k := by omega
      rw [harith]
      simpa [runEmit] using hm

/-! Claim theorems C3 - C10. -/

/-- C3: throughout every pipeline run the state grows monotonically:
once a stage merge has set a field (llm_justification_meta included),
every later state of the run retains the field with the same value;
merging a stage delta never removes or silently drops a previously set
field. -/
theorem pipeline_state_monotone (spec : PolicySpec) (out : LLMOutcome)
    (ec : EnrichedCase) (i j : Nat) (hij : i ≤ j) :
    stateLe (stateAt spec out ec i) (stateAt spec out ec j) := by
  induction hij with
  | refl => exact stateLe_refl _
  | step h ih => exact stateLe_trans ih (stateAt_chain spec out ec _)

/-- Witness for C3 on a concrete run, between the states after the
RISK merge and after the JUSTIFY merge. -/
theorem pipeline_state_monotone_witness :
    stateLe (stateAt demoSpec LLMOutcome.timedOut defaultCase 1)
      (stateAt demoSpec LLMOutcome.timedOut defaultCase 4) :=
  pipeline_state_monotone demoSpec LLMOutcome.timedOut defaultCase 1 4 (by decide)

/-- C4: on every external-collaborator failure at the JUSTIFY stage
(unreachable, timed out, non-JSON, schema-incomplete, or
guardrail-failed) the stage returns an absent justification with a
meta record whose error field is populated; the meta record is set in
the terminal state of every run, and the run still reaches the
VALIDATE stage, whose output is set in the terminal state. -/
theorem justify_failure_recovered (pd : PolicyDecision) (out : LLMOutcome)
    (spec : PolicySpec) (ec : EnrichedCase)
    (h : llmFails pd out = true) :
    (node_llm_justification pd out).1 = none ∧
    ((node_llm_justification pd out).2).error.isSome = true ∧
    (runFinal spec out ec).llm_justification_meta.isSome = true ∧
    (runFinal spec out ec).validation_ok.isSome = true := by
  have hmain : (node_llm_justification pd out).1 = none ∧
      ((node_llm_justification pd out).2).error.isSome = true := by
    cases out with
    | unreachable => exact ⟨rfl, rfl⟩
    | timedOut => exact ⟨rfl, rfl⟩
    | nonJSON raw => exact ⟨rfl, rfl⟩
    | parsed obj =>
      by_cases hv : validate_justification obj = true
      · by_cases hg : validate_against_debug_signals obj pd = true
        · exfalso
          simp [llmFails, hv, hg] at h
        · constructor <;> simp [node_llm_justification, hv, hg]
      · constructor <;> simp [node_llm_justification, hv]
  exact ⟨hmain.1, hmain.2, rfl, rfl⟩

/-- Witness for C4 on a concrete run whose collaborator call timed
out. -/
theorem justify_failure_recovered_witness :
    (node_llm_justification defaultDecision LLMOutcome.timedOut).1 = none ∧
    ((node_llm_justification defaultDecision LLMOutcome.timedOut).2).error.isSome = true ∧
    (runFinal demoSpec LLMOutcome.timedOut defaultCase).llm_justification_meta.isSome = true ∧
    (runFinal demoSpec LLMOutcome.timedOut defaultCase).validation_ok.isSome = true :=
  justify_failure_recovered defaultDecision LLMOutcome.timedOut demoSpec defaultCase
    (by decide)

/-- C5: the justification validator returns a present justification
only when its text contains at least one literal reason string of the
policy decision; a candidate with zero overlap is returned absent, and
when it passed the schema check the meta error is exactly the
guardrail error. -/
theorem justification_guardrail (pd : PolicyDecision) (obj : List (String × String)) :
    ((node_llm_justification pd (.parsed obj)).1.isSome = true →
      ∃ r ∈ pd.reasons, containsSubstr (justText obj) r = true) ∧
    ((∀ r ∈ pd.reasons, containsSubstr (justText obj) r = false) →
      (node_llm_justification pd (.parsed obj)).1 = none ∧
      (validate_justification obj = true →
        ((node_llm_justification pd (.parsed obj)).2).error = some guardrailErrorMsg)) := by
  constructor
  · intro hsome
    by_cases hv : validate_justification obj = true
    · by_cases hg : validate_against_debug_signals obj pd = true
      · rw [validate_against_debug_signals] at hg
        obtain ⟨r, hr, hcr⟩ := List.any_eq_true.mp hg
        exact ⟨r, hr, hcr⟩
      · exfalso
        simp [node_llm_justification, hv, hg] at hsome
    · exfalso
      simp [node_llm_justification, hv] at hsome
  · intro hzero
    have hg : validate_against_debug_signals obj pd = false := by
      rw [validate_against_debug_signals, List.any_eq_false]
      intro r hr
      simp [hzero r hr]
    by_cases hv : validate_justification obj = true
    · exact ⟨by simp [node_llm_justification, hv, hg],
        fun _ => by simp [node_llm_justification, hv, hg]⟩
    · refine ⟨by simp [node_llm_justification, hv], fun hvt => absurd hvt hv⟩

/-- Concrete decision whose single reason is a named velocity rule. -/
def wReasonsPd : PolicyDecision :=
  { case_id := "w5", decision := .L1_REVIEW, confidence := .low,
    reasons := ["High transaction velocity"], required_next_actions := [],
    debug_signals := [] }

/-- A schema-complete candidate justification that references none of
the decision reasons. -/
def wObjNoOverlap : List (String × String) :=
  [("case_summary", "routine case"), ("risk_assessment_summary", "minimal"),
   ("policy_alignment_explanation", "aligned"),
   ("recommended_action_rationale", "close")]

/-- Witness for C5: the zero-overlap candidate is rejected with the
guardrail error. -/
theorem justification_guardrail_witness :
    (node_llm_justification wReasonsPd (.parsed wObjNoOverlap)).1 = none ∧
    ((node_llm_justification wReasonsPd (.parsed wObjNoOverlap)).2).error
      = some guardrailErrorMsg := by
  have h := (justification_guardrail wReasonsPd wObjNoOverlap).2 (by decide)
  exact ⟨h.1, h.2 (by decide)⟩

/-- C6: every run emits exactly one progress event per stage, with
strictly increasing 1-based index 1..5 matching the stage order,
followed by exactly one terminal event; nothing follows the terminal
event. -/
theorem run_stream_shape (spec : PolicySpec) (out : LLMOutcome) (ec : EnrichedCase) :
    (runStream spec out ec).length = 6 ∧
    (∀ k, k < 5 →
      ∃ m, (runStream spec out ec)[k]? = some (Event.progress m (k + 1) 5)) ∧
    (∃ res, (runStream spec out ec)[5]? = some (Event.done res)) ∧
    (∀ k, 6 ≤ k → (runStream spec out ec)[k]? = none) := by
  obtain ⟨hlen, hidx⟩ := runEmit_events (stages spec out) (initState ec) 1 5
  have hrs : runStream spec out ec =
      (runEmit (initState ec) 1 5 (stages spec out)).1 ++
        [Event.done (runEmit (initState ec) 1 5 (stages spec out)).2] := rfl
  have hl1 : ((runEmit (initState ec) 1 5 (stages spec out)).1).length = 5 := by
    rw [hlen]; rfl
  refine ⟨?_, ?_, ?_, ?_⟩
  · rw [hrs]
    simp [hl1]
  · intro k hk
    obtain ⟨m, hm⟩ := hidx k (by simpa using hk)
    refine ⟨m, ?_⟩
    rw [hrs, List.getElem?_append_left (by rw [hl1]; exact hk)]
    have harith : 1 + k = k + 1 := by omega
    rw [harith] at hm
    exact hm
  · refine ⟨(runEmit (initState ec) 1 5 (stages spec out)).2, ?_⟩
    rw [hrs, List.getElem?_append_right (by rw [hl1])]
    rw [hl1]
    rfl
  · intro k hk
    apply List.getElem?_eq_none
    rw [hrs]
    simp [hl1]
    omega

/-- Witness for C6 on a concrete run: 6 events, the third progress
event carries index 3, and the terminal done event sits at position
5. -/
theorem run_stream_shape_witness :
    (runStream demoSpec LLMOutcome.unreachable defaultCase).length = 6 ∧
    (∃ m, (runStream demoSpec LLMOutcome.unreachable defaultCase)[2]?
      = some (Event.progress m 3 5)) ∧
    (∃ res, (runStream demoSpec LLMOutcome.unreachable defaultCase)[5]?
      = some (Event.done res)) := by
  obtain ⟨h1, h2, h3, _⟩ := run_stream_shape demoSpec LLMOutcome.unreachable defaultCase
  exact ⟨h1, h2 2 (by decide), h3⟩

/-- C7: the signal extractors are total over every enriched case —
they return plain signal records on all inputs — and every missing or
malformed sub-field degrades to its conservative default, 0 for
numeric signals and "unknown" for the categorical one. -/
theorem extractors_total_with_defaults (c : EnrichedCase)
    (h1 : getNum c.flagged_transactions "total_amount" = none)
    (h2 : getNum c.flagged_transactions "txn_velocity" = none)
    (h3 : getNum c.flagged_transactions "crypto_share" = none)
    (h4 : getNum c.alerts_in_case "alert_count" = none)
    (h5 : getCat c.behavior_snapshot "behavior_flag" = none)
    (h6 : getNum c.behavior_snapshot "deviation_score" = none) :
    (extract_risk c).total_flagged_amount = 0 ∧
    (extract_risk c).txn_velocity = 0 ∧
    (extract_risk c).crypto_share = 0 ∧
    (extract_risk c).alert_count = 0 ∧
    (extract_behavior c).behavior_flag = "unknown" ∧
    (extract_behavior c).deviation_score = 0 := by
  simp [extract_risk, extract_behavior, h1, h2, h3, h4, h5, h6]

/-- A case with one missing payload, one unsplittable payload and one
payload whose entries are malformed. -/
def malformedCase : EnrichedCase :=
  { case_id := "w7", customer_id := "cust-7",
    customer_snapshot := none, case_metadata := none,
    alerts_in_case := some "garbage payload",
    flagged_transactions := some "total_amount=abc;txn_velocity",
    behavior_snapshot := none }

/-- Witness for C7: on the malformed case every signal is its
conservative default. -/
theorem extractors_total_with_defaults_witness :
    (extract_risk malformedCase).total_flagged_amount = 0 ∧
    (extract_risk malformedCase).txn_velocity = 0 ∧
    (extract_risk malformedCase).crypto_share = 0 ∧
    (extract_risk malformedCase).alert_count = 0 ∧
    (extract_behavior malformedCase).behavior_flag = "unknown" ∧
    (extract_behavior malformedCase).deviation_score = 0 :=
  extractors_total_with_defaults malformedCase (by decide) (by decide) (by decide)
    (by decide) (by decide) (by decide)

/-- C8: the request sent to the LLM collaborator is a function of the
policy-decision subset (decision, confidence, reasons,
required_next_actions, debug_signals) and the fixed template only: two
pipeline states agreeing on that subset produce identical requests,
whatever their enriched case or other content. -/
theorem llm_request_noninterference (s1 s2 : PipelineState)
    (h : pdSubset (s1.policy_decision.getD defaultDecision)
       = pdSubset (s2.policy_decision.getD defaultDecision)) :
    buildRequest s1 = buildRequest s2 := by
  unfold buildRequest
  rw [h]

def wPdA : PolicyDecision :=
  { case_id := "case-A", decision := .ESCALATE_L2, confidence := .medium,
    reasons := ["r1"], required_next_actions := ["a1"], debug_signals := [("x", 1)] }

def wPdB : PolicyDecision :=
  { case_id := "case-B", decision := .ESCALATE_L2, confidence := .medium,
    reasons := ["r1"], required_next_actions := ["a1"], debug_signals := [("x", 1)] }

def wStateA : PipelineState :=
  { enriched_case := some malformedCase, risk_signals := none
    behavior_signals := none, policy_decision := some wPdA
    llm_justification := none, llm_justification_meta := none
    validation_ok := none, validation_errors := none }

def wStateB : PipelineState :=
  { enriched_case := some defaultCase, risk_signals := some defaultRisk
    behavior_signals := none, policy_decision := some wPdB
    llm_justification := none, llm_justification_meta := none
    validation_ok := none, validation_errors := none }

/-- Witness for C8: two states with different enriched cases, extra
state content and different decision case ids, but equal subsets,
yield the same request. -/
theorem llm_request_noninterference_witness :
    buildRequest wStateA = buildRequest wStateB :=
  llm_request_noninterference wStateA wStateB rfl

/-- C9: the stream reader is invariant to chunk boundaries: for any
partition of the response characters into chunks, the buffer loop
hands on exactly the complete newline-terminated lines of the whole
stream, in order and each exactly once, and keeps exactly the trailing
partial line in the buffer; two partitions of the same stream yield
identical processed lines and buffer. -/
theorem chunk_boundary_invariance (chunks1 chunks2 : List (List Char))
    (h : chunks1.flatten = chunks2.flatten) :
    feedChunks chunks1 = feedChunks chunks2 ∧
    feedChunks chunks1 = splitParts chunks1.flatten := by
  refine ⟨?_, feedChunks_parts chunks1⟩
  rw [feedChunks_parts, feedChunks_parts, h]

/-- Witness for C9: a two-chunk partition that cuts a data line in the
middle processes the same lines as the unsplit stream. -/
theorem chunk_boundary_invariance_witness :
    feedChunks ["data: a\nda".data, "ta: b\npar".data] =
      feedChunks ["data: a\ndata: b\npar".data] ∧
    feedChunks ["data: a\nda".data, "ta: b\npar".data] =
      splitParts (["data: a\nda".data, "ta: b\npar".data]).flatten :=
  chunk_boundary_invariance ["data: a\nda".data, "ta: b\npar".data]
    ["data: a\ndata: b\npar".data] (by decide)

/-- C10: a data line whose payload the JSON parser rejects is skipped
and processing continues with the next line, and a line without the
data marker is ignored; neither aborts the run (the result is ok) nor
changes the component state, the error banner included. -/
theorem malformed_or_unmarked_line_skipped (parse : List Char → Option FrontEvent)
    (st : FrontState) (line : List Char) (rest : List (List Char))
    (h : line.take 6 ≠ dataTag ∨ parse (line.drop 6) = none) :
    processLine parse st line = .ok st ∧
    processLines parse st (line :: rest) = processLines parse st rest := by
  have hline : processLine parse st line = .ok st := by
    unfold processLine
    rcases h with h | h
    · rw [if_neg h]
    · by_cases ht : line.take 6 = dataTag
      · rw [if_pos ht, h]
      · rw [if_neg ht]
  refine ⟨hline, ?_⟩
  have hstep : processLines parse st (line :: rest) =
      match processLine parse st line with
      | .ok st2 => processLines parse st2 rest
      | .error e => Except.error e := rfl
  rw [hstep, hline]

/-- A concrete parser recognizing a single payload, for exercising the
line loop. -/
def demoParse : List Char → Option FrontEvent := fun l =>
  if l = "ok".data then some FrontEvent.other else none

def wFront : FrontState := { output := none, progressBar := none, errorMsg := none }

/-- Witness for C10: a line without the data marker leaves the state
untouched and is transparent to the rest of the line list. -/
theorem malformed_line_skipped_witness :
    processLine demoParse wFront "hello world".data = .ok wFront ∧
    processLines demoParse wFront ["hello world".data] =
      processLines demoParse wFront [] :=
  malformed_or_unmarked_line_skipped demoParse wFront "hello world".data []
    (Or.inl (by decide))

end AML
